import Mathlib

/-!
A shallow embedding of the core of a small Wayland compositor server
(`src/main.rs`): the per-client object registry, the per-interface request
handlers (`CompositorClientState::handle_message`), the double-buffered
surface state with its `commit` swap, and the byte-level frame assembler of
the client read loop.  Machine integers are modelled as `Nat` (u32/u16,
always below their modulus on the paths exercised here) and `Int`
(i32, decoded from little-endian bytes with an explicit two's-complement
conversion).  Rust panics reachable from byte-slicing argument buffers are
modelled as an explicit error value, as is the `usize` underflow in the
frame-extraction loop.  Socket writes are modelled as an ordered event list;
memory mappings are abstracted to the file descriptor that backs them
(no claim examined here depends on mapping contents).
-/

/-- Little-endian u16 read at offset `i` of a byte list (bytes as `Nat`).
Models `u16::from_le_bytes([data[i], data[i+1]])`. -/
def leU16 (bs : List Nat) (i : Nat) : Nat :=
  bs.getD i 0 + 256 * bs.getD (i + 1) 0

/-- Little-endian u32 read at offset `i` of a byte list.
Models `u32::from_le_bytes(arg_bytes[i..i+4].try_into().unwrap())`. -/
def leU32 (bs : List Nat) (i : Nat) : Nat :=
  bs.getD i 0 + 256 * bs.getD (i + 1) 0 + 65536 * bs.getD (i + 2) 0 +
    16777216 * bs.getD (i + 3) 0

/-- Two's-complement reinterpretation of a u32 value as an i32. -/
def toI32 (v : Nat) : Int :=
  if v < 2147483648 then (v : Int) else (v : Int) - 4294967296

/-- Checked u32 read: `none` models the Rust panic when the 4-byte slice
`arg_bytes[i..i+4]` is out of bounds. -/
def readU32 (bs : List Nat) (i : Nat) : Option Nat :=
  if i + 4 ≤ bs.length then some (leU32 bs i) else none

/-- Checked i32 read (same bounds behaviour as `readU32`). -/
def readI32 (bs : List Nat) (i : Nat) : Option Int :=
  if i + 4 ≤ bs.length then some (toI32 (leU32 bs i)) else none

/-- Checked sub-slice `bs[a..b]`: `none` models the Rust slice panic when
`a > b` or `b > bs.length`. -/
def readSlice (bs : List Nat) (a b : Nat) : Option (List Nat) :=
  if a ≤ b ∧ b ≤ bs.length then some ((bs.take b).drop a) else none

/-- The double-buffered per-surface state, field for field the Rust
`struct Surface`.  `pending_transform` holds the raw i32 that the source
stores through `std::mem::transmute::<i32, WlOutputTransform>` (the enum
representation is its `#[repr(u32)]` discriminant; `Normal = 0` is the
`Default`).  `#[derive(Default)]` gives `none`, `[]`, `0` and `(0, 0)`. -/
structure Surface where
  pending_buffer : Option Nat := none
  current_buffer : Option Nat := none
  pending_surface_damage : List (Int × Int × Int × Int) := []
  current_surface_damage : List (Int × Int × Int × Int) := []
  pending_buffer_damage : List (Int × Int × Int × Int) := []
  current_buffer_damage : List (Int × Int × Int × Int) := []
  pending_opaque_region : Option Nat := none
  current_opaque_region : Option Nat := none
  pending_input_region : Option Nat := none
  current_input_region : Option Nat := none
  pending_transform : Int := 0
  current_transform : Int := 0
  pending_scale : Int := 0
  current_scale : Int := 0
  pending_offset : Int × Int := (0, 0)
  current_offset : Int × Int := (0, 0)
  frame_callbacks : List Nat := []
deriving DecidableEq

/-- The surface mutation performed by the `wl_surface.commit` arm of
`handle_message` (opcode 6): `Option::take` moves each pending optional
into the current slot leaving `none`; `std::mem::take` moves each pending
damage list leaving `[]`; transform, scale and offset are `Copy` and are
copied without resetting the pending slot; `frame_callbacks.drain(..)`
leaves the callback list empty. -/
def commitSurface (s : Surface) : Surface :=
  { s with
    current_buffer := s.pending_buffer
    pending_buffer := none
    current_surface_damage := s.pending_surface_damage
    pending_surface_damage := []
    current_buffer_damage := s.pending_buffer_damage
    pending_buffer_damage := []
    current_opaque_region := s.pending_opaque_region
    pending_opaque_region := none
    current_input_region := s.pending_input_region
    pending_input_region := none
    current_transform := s.pending_transform
    current_scale := s.pending_scale
    current_offset := s.pending_offset
    frame_callbacks := [] }

/-- The Rust `struct Buffer`.  The `Arc<Mutex<MmapMut>>` shared mapping is
abstracted to the file descriptor that the owning pool was created from
(the variant `WaylandObject::ShmPool` carries the same fd). -/
structure Buffer where
  offset : Int
  width : Int
  height : Int
  stride : Int
  format : Nat
  shm_pool : Int
deriving DecidableEq

/-- The tagged object variant `enum WaylandObject`, one case per supported
interface.  `ShmPool` keeps the fd; the memory mapping is abstracted. -/
inductive WaylandObject where
  | Display
  | Registry
  | XdgWmBase
  | ShmPool (fd : Int)
  | WlCompositor
  | Callback
  | Shm
  | Buffer (b : Buffer)
  | WlSurface (s : Surface)
  | WlRegion
deriving DecidableEq

/-- `WaylandObject::as_str`: the interface name advertised for each kind. -/
def WaylandObject.as_str : WaylandObject → String
  | .Display => "wl_display"
  | .Registry => "wl_registry"
  | .Callback => "wl_callback"
  | .XdgWmBase => "xdg_wm_base"
  | .ShmPool _ => "wl_shm_pool"
  | .Shm => "wl_shm"
  | .Buffer _ => "wl_buffer"
  | .WlCompositor => "wl_compositor"
  | .WlSurface _ => "wl_surface"
  | .WlRegion => "wl_region"

/-- The per-client object registry `HashMap<u32, WaylandObject>`, modelled
as an association list with `HashMap` lookup/insert/remove semantics. -/
abbrev Reg := List (Nat × WaylandObject)

/-- `object_registry.get(&id)` / `get_mut(&id)`. -/
def regLookup (r : Reg) (id : Nat) : Option WaylandObject :=
  match r with
  | [] => none
  | (k, o) :: rest => if k = id then some o else regLookup rest id

/-- `object_registry.insert(id, o)`: binds `id` to `o`, silently replacing
any existing binding (Rust `HashMap::insert`). -/
def regInsert (r : Reg) (id : Nat) (o : WaylandObject) : Reg :=
  (id, o) :: r.filter (fun p => p.1 ≠ id)

/-- `object_registry.remove(&id)`. -/
def regRemove (r : Reg) (id : Nat) : Reg :=
  r.filter (fun p => p.1 ≠ id)

/-- The registry of a fresh client: `CompositorClientState::new` preallocates
object id 1 as the display. -/
def initialRegistry : Reg := [(1, WaylandObject.Display)]

/-- The process-wide globals table `CompositorGlobalState::default()`:
`(name, kind, version)` triples. -/
def defaultGlobals : List (Nat × WaylandObject × Nat) :=
  [(1, WaylandObject.Shm, 1), (2, WaylandObject.WlCompositor, 6),
   (3, WaylandObject.XdgWmBase, 7)]

/-- Events written to the client socket, one constructor per `send_*`
helper of the repository: `send_callback_done`, `send_global`,
`send_format`, and `send_wl_display_error` (the latter exists in
`wl_display.rs` and is available to the client task). -/
inductive Event where
  | callbackDone (callbackId : Nat) (callbackData : Nat)
  | registryGlobal (registryId : Nat) (name : Nat) (interface : String) (version : Nat)
  | shmFormat (shmId : Nat) (format : Nat)
  | displayError (code : Nat) (message : String)
deriving DecidableEq

/-- Whether an event is a `display.error` event. -/
def Event.isDisplayError : Event → Bool
  | .displayError _ _ => true
  | _ => false

/-- Whether a byte is a UTF-8 continuation byte (`0x80..0xBF`). -/
def isCont (b : Nat) : Bool := 128 ≤ b ∧ b ≤ 191

/-- UTF-8 validity of a byte sequence, the check performed by Rust's
`String::from_utf8`: ASCII bytes stand alone; `0xC2..0xDF` lead a 2-byte
sequence; `0xE0`/`0xE1..0xEC,0xEE,0xEF`/`0xED` lead 3-byte sequences
(with the restricted second-byte ranges that exclude overlong forms and
surrogates); `0xF0`/`0xF1..0xF3`/`0xF4` lead 4-byte sequences (excluding
overlong forms and code points above `0x10FFFF`). -/
def isValidUtf8 : List Nat → Bool
  | [] => true
  | b :: rest =>
    if b ≤ 127 then isValidUtf8 rest
    else if 194 ≤ b ∧ b ≤ 223 then
      match rest with
      | c1 :: rest2 => isCont c1 && isValidUtf8 rest2
      | [] => false
    else if b = 224 then
      match rest with
      | c1 :: c2 :: rest2 =>
        (decide (160 ≤ c1 ∧ c1 ≤ 191)) && isCont c2 && isValidUtf8 rest2
      | _ => false
    else if (225 ≤ b ∧ b ≤ 236) ∨ b = 238 ∨ b = 239 then
      match rest with
      | c1 :: c2 :: rest2 => isCont c1 && isCont c2 && isValidUtf8 rest2
      | _ => false
    else if b = 237 then
      match rest with
      | c1 :: c2 :: rest2 =>
        (decide (128 ≤ c1 ∧ c1 ≤ 159)) && isCont c2 && isValidUtf8 rest2
      | _ => false
    else if b = 240 then
      match rest with
      | c1 :: c2 :: c3 :: rest2 =>
        (decide (144 ≤ c1 ∧ c1 ≤ 191)) && isCont c2 && isCont c3 && isValidUtf8 rest2
      | _ => false
    else if 241 ≤ b ∧ b ≤ 243 then
      match rest with
      | c1 :: c2 :: c3 :: rest2 =>
        isCont c1 && isCont c2 && isCont c3 && isValidUtf8 rest2
      | _ => false
    else if b = 244 then
      match rest with
      | c1 :: c2 :: c3 :: rest2 =>
        (decide (128 ≤ c1 ∧ c1 ≤ 143)) && isCont c2 && isCont c3 && isValidUtf8 rest2
      | _ => false
    else false

/-- Typed handler failures: each constructor is one `anyhow::bail!`, `?`
or panic site of `handle_message`.  `argOutOfBounds` models the panic of
an out-of-range argument slice (`try_into().unwrap()` / slice indexing);
`invalidUtf8` models the `String::from_utf8(...).unwrap()` panic of the
bind arm on non-UTF-8 interface bytes; `missingFd` is the `create_pool`
bail when the fd queue is empty; `mappingFailed` is the `?`-propagated
`map_mut` failure of `create_pool` (deterministic for non-positive
sizes: length 0 is rejected by mmap, and a negative i32 sign-extends to
an unmappable huge `usize`); `unknownGlobalKind` is the `bind` bail on
an unsupported kind stored in the globals table. -/
inductive HErr where
  | argOutOfBounds
  | invalidUtf8
  | missingFd
  | mappingFailed
  | unknownGlobalKind
deriving DecidableEq

/-- Lift a checked read into the handler error monad. -/
def req {α : Type} (o : Option α) : Except HErr α :=
  match o with
  | some a => .ok a
  | none => .error .argOutOfBounds

/-- Result of one successful `handle_message` call: the updated registry,
the events written to the socket (in write order), and the remaining fd
queue. -/
structure HandlerResult where
  registry : Reg
  events : List Event
  fds : List Int
deriving DecidableEq

/-- The `WaylandObject::Display` arm of `handle_message` (equivalently
`handle_wl_display_message` in `wl_display.rs`): `sync` (opcode 0)
installs a callback under the client-chosen id and immediately emits
`callback.done(serial=0)` on it; `get_registry` (opcode 1) installs a
registry object and emits one `registry.global` per entry of the globals
table, in table order.  Unknown opcodes are logged and ignored. -/
def handle_wl_display_message (registry : Reg) (fds : List Int)
    (globals : List (Nat × WaylandObject × Nat))
    (op_code : Nat) (arg_bytes : List Nat) : Except HErr HandlerResult :=
  match op_code with
  | 0 => do
    let new_id ← req (readU32 arg_bytes 0)
    .ok ⟨regInsert registry new_id .Callback, [.callbackDone new_id 0], fds⟩
  | 1 => do
    let new_id ← req (readU32 arg_bytes 0)
    .ok ⟨regInsert registry new_id .Registry,
      globals.map (fun g => .registryGlobal new_id g.1 g.2.1.as_str g.2.2),
      fds⟩
  | _ => .ok ⟨registry, [], fds⟩

/-- The `WaylandObject::Registry` arm of `handle_message` (`bind`,
opcode 0).  The wire arguments are `(name, interface string, version,
new_id)`; the handler parses all four — `String::from_utf8(...)
.unwrap()` panics on non-UTF-8 interface bytes (`.error .invalidUtf8`)
— then looks the global up in the table *by name only*: the pattern
`(_, interface, version)` of the source shadows the parsed client
string with the stored kind, so the client-sent interface string is
used only for logging.  If a global with that name exists and its
stored kind is `Shm`, `XdgWmBase` or `WlCompositor`, an object of that
kind is installed under `new_id` (with the two `shm.format` events
first, for `Shm`); another stored kind hits `anyhow::bail!`; no
matching name is a logged no-op. -/
def handle_wl_registry_message (registry : Reg) (fds : List Int)
    (globals : List (Nat × WaylandObject × Nat))
    (op_code : Nat) (arg_bytes : List Nat) : Except HErr HandlerResult :=
  match op_code with
  | 0 => do
    let name ← req (readU32 arg_bytes 0)
    let iface_len ← req (readU32 arg_bytes 4)
    let padded_len := (iface_len + 3) / 4 * 4
    let iface ← req (readSlice arg_bytes 8 (8 + iface_len - 1))
    if isValidUtf8 iface then do
    let _version ← req (readU32 arg_bytes (8 + padded_len))
    let new_id ← req (readU32 arg_bytes (12 + padded_len))
    match globals.find? (fun g => g.1 = name) with
    | some g =>
      match g.2.1 with
      | .Shm =>
        .ok ⟨regInsert registry new_id .Shm,
          [.shmFormat new_id 0, .shmFormat new_id 0x34324752], fds⟩
      | .XdgWmBase => .ok ⟨regInsert registry new_id .XdgWmBase, [], fds⟩
      | .WlCompositor => .ok ⟨regInsert registry new_id .WlCompositor, [], fds⟩
      | _ => .error .unknownGlobalKind
    | none => .ok ⟨registry, [], fds⟩
    else .error .invalidUtf8
  | _ => .ok ⟨registry, [], fds⟩

/-- The `WaylandObject::Shm` arm of `handle_message`: `create_pool`
(opcode 0) pops one fd from the queue and memory-maps `size as usize`
bytes of it.  An empty fd queue hits `anyhow::bail!`; the mmap fails
(`?`, closing the connection) for a non-positive size — length 0 is
rejected by mmap and a negative i32 sign-extends to an unmappable huge
`usize` — and is modelled as succeeding for positive sizes, where the
outcome depends only on the client-supplied fd, which the embedding
abstracts.  `release` (opcode 1) removes the shm object itself. -/
def handle_wl_shm_message (registry : Reg) (fds : List Int)
    (object_id : Nat) (op_code : Nat) (arg_bytes : List Nat) :
    Except HErr HandlerResult :=
  match op_code with
  | 0 => do
    let new_id ← req (readU32 arg_bytes 0)
    let size ← req (readI32 arg_bytes 4)
    match fds with
    | fd :: rest =>
      if size ≤ 0 then .error .mappingFailed
      else .ok ⟨regInsert registry new_id (.ShmPool fd), [], rest⟩
    | [] => .error .missingFd
  | 1 => .ok ⟨regRemove registry object_id, [], fds⟩
  | _ => .ok ⟨registry, [], fds⟩

/-- The `WaylandObject::ShmPool` arm of `handle_message`: `create_buffer`
(opcode 0) installs a `Buffer` sharing the pool mapping (here: its fd);
`destroy` (opcode 1) removes the pool; `resize` (opcode 2) remaps in
place (modelled as succeeding). -/
def handle_wl_shm_pool_message (registry : Reg) (fds : List Int)
    (object_id : Nat) (op_code : Nat) (arg_bytes : List Nat) (fd : Int) :
    Except HErr HandlerResult :=
  match op_code with
  | 0 => do
    let new_id ← req (readU32 arg_bytes 0)
    let offset ← req (readI32 arg_bytes 4)
    let width ← req (readI32 arg_bytes 8)
    let height ← req (readI32 arg_bytes 12)
    let stride ← req (readI32 arg_bytes 16)
    let format ← req (readU32 arg_bytes 20)
    .ok ⟨regInsert registry new_id
      (.Buffer ⟨offset, width, height, stride, format, fd⟩), [], fds⟩
  | 1 => .ok ⟨regRemove registry object_id, [], fds⟩
  | 2 => do
    let _new_size ← req (readU32 arg_bytes 0)
    .ok ⟨registry, [], fds⟩
  | _ => .ok ⟨registry, [], fds⟩

/-- The `WaylandObject::Buffer` arm of `handle_message`: `destroy`
(opcode 0) removes the buffer. -/
def handle_wl_buffer_message (registry : Reg) (fds : List Int)
    (object_id : Nat) (op_code : Nat) : Except HErr HandlerResult :=
  match op_code with
  | 0 => .ok ⟨regRemove registry object_id, [], fds⟩
  | _ => .ok ⟨registry, [], fds⟩

/-- The `WaylandObject::WlCompositor` arm of `handle_message`:
`create_surface` (opcode 0) installs a default surface, `create_region`
(opcode 1) installs a region. -/
def handle_wl_compositor_message (registry : Reg) (fds : List Int)
    (op_code : Nat) (arg_bytes : List Nat) : Except HErr HandlerResult :=
  match op_code with
  | 0 => do
    let new_id ← req (readU32 arg_bytes 0)
    .ok ⟨regInsert registry new_id (.WlSurface {}), [], fds⟩
  | 1 => do
    let new_id ← req (readU32 arg_bytes 0)
    .ok ⟨regInsert registry new_id .WlRegion, [], fds⟩
  | _ => .ok ⟨registry, [], fds⟩

/-- The `WaylandObject::WlSurface` arm of `handle_message`
(equivalently `handle_wl_surface_message` in `wl_surface.rs`), opcode
for opcode: destroy, attach, damage, frame, set_opaque_region,
set_input_region, commit, set_buffer_transform (the unchecked
`transmute` stores the raw i32), set_buffer_scale, damage_buffer, and
offset.  `frame` first pushes `new_id` on the surface callback list and
then inserts the callback object; `commit` performs `commitSurface` and
emits `callback.done(0)` for each drained callback in list order. -/
def handle_wl_surface_message (registry : Reg) (fds : List Int)
    (object_id : Nat) (op_code : Nat) (arg_bytes : List Nat) (s : Surface) :
    Except HErr HandlerResult :=
  match op_code with
  | 0 => .ok ⟨regRemove registry object_id, [], fds⟩
  | 1 => do
    let buffer_id ← req (readU32 arg_bytes 0)
    let _x ← req (readI32 arg_bytes 4)
    let _y ← req (readI32 arg_bytes 8)
    .ok ⟨regInsert registry object_id
      (.WlSurface { s with pending_buffer := some buffer_id }), [], fds⟩
  | 2 => do
    let x ← req (readI32 arg_bytes 0)
    let y ← req (readI32 arg_bytes 4)
    let width ← req (readI32 arg_bytes 8)
    let height ← req (readI32 arg_bytes 12)
    .ok ⟨regInsert registry object_id
      (.WlSurface { s with pending_surface_damage :=
        s.pending_surface_damage ++ [(x, y, width, height)] }), [], fds⟩
  | 3 => do
    let new_id ← req (readU32 arg_bytes 0)
    .ok ⟨regInsert
      (regInsert registry object_id
        (.WlSurface { s with frame_callbacks := s.frame_callbacks ++ [new_id] }))
      new_id .Callback, [], fds⟩
  | 4 => do
    let region_id ← req (readU32 arg_bytes 0)
    .ok ⟨regInsert registry object_id
      (.WlSurface { s with pending_opaque_region := some region_id }), [], fds⟩
  | 5 => do
    let region_id ← req (readU32 arg_bytes 0)
    .ok ⟨regInsert registry object_id
      (.WlSurface { s with pending_input_region := some region_id }), [], fds⟩
  | 6 =>
    .ok ⟨regInsert registry object_id (.WlSurface (commitSurface s)),
      s.frame_callbacks.map (fun cid => .callbackDone cid 0), fds⟩
  | 7 => do
    let transform ← req (readI32 arg_bytes 0)
    .ok ⟨regInsert registry object_id
      (.WlSurface { s with pending_transform := transform }), [], fds⟩
  | 8 => do
    let scale ← req (readI32 arg_bytes 0)
    .ok ⟨regInsert registry object_id
      (.WlSurface { s with pending_scale := scale }), [], fds⟩
  | 9 => do
    let x ← req (readI32 arg_bytes 0)
    let y ← req (readI32 arg_bytes 4)
    let width ← req (readI32 arg_bytes 8)
    let height ← req (readI32 arg_bytes 12)
    .ok ⟨regInsert registry object_id
      (.WlSurface { s with pending_buffer_damage :=
        s.pending_buffer_damage ++ [(x, y, width, height)] }), [], fds⟩
  | 10 => do
    let x ← req (readI32 arg_bytes 0)
    let y ← req (readI32 arg_bytes 4)
    .ok ⟨regInsert registry object_id
      (.WlSurface { s with pending_offset := (x, y) }), [], fds⟩
  | _ => .ok ⟨registry, [], fds⟩

/-- `CompositorClientState::handle_message`: looks the target object up
in the per-client registry and dispatches on its kind.  An unknown object
id is a logged warning that leaves all state unchanged and returns
success, as do the interfaces without requests (`Callback`, `WlRegion`,
`XdgWmBase`). -/
def handle_message (registry : Reg) (fds : List Int)
    (globals : List (Nat × WaylandObject × Nat))
    (object_id : Nat) (op_code : Nat) (arg_bytes : List Nat) :
    Except HErr HandlerResult :=
  match regLookup registry object_id with
  | none => .ok ⟨registry, [], fds⟩
  | some obj =>
    match obj with
    | .Display => handle_wl_display_message registry fds globals op_code arg_bytes
    | .Registry => handle_wl_registry_message registry fds globals op_code arg_bytes
    | .Callback => .ok ⟨registry, [], fds⟩
    | .Shm => handle_wl_shm_message registry fds object_id op_code arg_bytes
    | .ShmPool fd => handle_wl_shm_pool_message registry fds object_id op_code arg_bytes fd
    | .Buffer _ => handle_wl_buffer_message registry fds object_id op_code
    | .WlCompositor => handle_wl_compositor_message registry fds op_code arg_bytes
    | .WlSurface s => handle_wl_surface_message registry fds object_id op_code arg_bytes s
    | .WlRegion => .ok ⟨registry, [], fds⟩
    | .XdgWmBase => .ok ⟨registry, [], fds⟩

/-- The dispatch loop of the client task over already-assembled frames:
each frame is handled in order; events accumulate in write order.  On the
first handler error the task logs, shuts the write half of the socket and
exits (`stream.shutdown().await.ok(); return`), emitting nothing further:
the `Except.error` result models that exit-with-shutdown outcome and
carries no additional events. -/
def runMessages (registry : Reg) (fds : List Int)
    (globals : List (Nat × WaylandObject × Nat)) :
    List (Nat × Nat × List Nat) → List Event × Except HErr (Reg × List Int)
  | [] => ([], .ok (registry, fds))
  | (oid, op, args) :: rest =>
    match handle_message registry fds globals oid op args with
    | .ok r =>
      let out := runMessages r.registry r.fds globals rest
      (r.events ++ out.1, out.2)
    | .error e => ([], .error e)

deriving instance DecidableEq for Except

/-- One dispatched frame: `(object id, opcode, argument bytes)` as extracted
by the read loop. -/
structure WireMsg where
  object_id : Nat
  op_code : Nat
  args : List Nat
deriving DecidableEq

/-- Decode one complete frame (header plus argument bytes): the first four
bytes are the object id, the next two the opcode, and the argument buffer
is everything after the 8-byte header. -/
def decodeMsg (f : List Nat) : WireMsg :=
  ⟨leU32 f 0, leU16 f 4, f.drop 8⟩

/-- Failure of the frame-extraction loop: the Rust code computes
`message_length as usize - 8` without checking `message_length >= 8`, so a
header declaring a total length below 8 underflows (a panic in debug, an
absurd allocation in release).  `lenUnderflow` models that abort. -/
inductive DrainErr where
  | lenUnderflow
deriving DecidableEq

/-- Fuel-indexed frame-extraction loop, the body of
`while data.len() >= 8 && data.len() >= u16::from_le_bytes([data[6], data[7]]) as usize`:
each iteration peeks the header length at bytes 6..8, extracts that many
bytes as one frame, and recurses on the rest.  The fuel only bounds the
iteration count; `drain` supplies enough fuel for any input (each
iteration consumes at least 8 bytes). -/
def drainAux : Nat → List Nat → Except DrainErr (List WireMsg × List Nat)
  | 0, q => .ok ([], q)
  | fuel + 1, q =>
    if 8 ≤ q.length ∧ leU16 q 6 ≤ q.length then
      if 8 ≤ leU16 q 6 then
        match drainAux fuel (q.drop (leU16 q 6)) with
        | .ok (ms, r) => .ok (decodeMsg (q.take (leU16 q 6)) :: ms, r)
        | .error e => .error e
      else .error .lenUnderflow
    else .ok ([], q)

/-- Drain the byte queue into complete frames, leaving the residual partial
frame in the queue. -/
def drain (q : List Nat) : Except DrainErr (List WireMsg × List Nat) :=
  drainAux q.length q

/-- The receive loop across reads: each chunk of bytes is appended to the
per-client queue and the queue is drained; frames accumulate in dispatch
order.  An extraction failure aborts the task. -/
def processChunks (q : List Nat) :
    List (List Nat) → Except DrainErr (List WireMsg × List Nat)
  | [] => .ok ([], q)
  | c :: cs =>
    match drain (q ++ c) with
    | .ok (ms, r) =>
      match processChunks r cs with
      | .ok (ms2, r2) => .ok (ms ++ ms2, r2)
      | .error e => .error e
    | .error e => .error e

/-- A byte stream that is a concatenation of well-formed frames: each frame
is at least 8 bytes, fits a u16 length field, consists of bytes, and its
header length field equals its actual length. -/
inductive WfStream : List Nat → Prop
  | nil : WfStream []
  | cons (f s : List Nat) : 8 ≤ f.length → f.length ≤ 65535 →
      leU16 f 6 = f.length → (∀ b ∈ f, b < 256) → WfStream s →
      WfStream (f ++ s)


/-- Little-endian 4-byte encoding of a u32 value (`u32::to_le_bytes`). -/
def leBytes4 (v : Nat) : List Nat :=
  [v % 256, v / 256 % 256, v / 65536 % 256, v / 16777216 % 256]

lemma leU32_leBytes4 (v : Nat) (h : v < 4294967296) : leU32 (leBytes4 v) 0 = v := by
  show (v % 256) + 256 * (v / 256 % 256) + 65536 * (v / 65536 % 256) +
    16777216 * (v / 16777216 % 256) = v
  omega

lemma regLookup_filter_ne (r : Reg) (id j : Nat) (h : id ≠ j) :
    regLookup (r.filter (fun p => p.1 ≠ j)) id = regLookup r id := by
  induction r with
  | nil => rfl
  | cons p rest ih =>
    obtain ⟨k, o2⟩ := p
    simp only [ne_eq, decide_not] at ih ⊢
    by_cases hkj : k = j
    · have hki : ¬(k = id) := fun hc => h (hc ▸ hkj ▸ rfl)
      have hji : ¬(j = id) := fun hc => h (Eq.symm hc)
      simp [List.filter_cons, hkj, regLookup, hki, hji, ih]
    · by_cases hki : k = id <;>
        simp [List.filter_cons, hkj, regLookup, hki, ih, h]

lemma readU32_leBytes4 (v : Nat) (h : v < 4294967296) :
    readU32 (leBytes4 v) 0 = some v := by
  rw [readU32, if_pos (by simp [leBytes4]), leU32_leBytes4 v h]

lemma regLookup_regInsert_self (r : Reg) (id : Nat) (o : WaylandObject) :
    regLookup (regInsert r id o) id = some o := by
  simp [regInsert, regLookup]

lemma regLookup_regInsert_ne (r : Reg) (id j : Nat) (o : WaylandObject)
    (h : id ≠ j) : regLookup (regInsert r j o) id = regLookup r id := by
  have hji : ¬(j = id) := fun hc => h (Eq.symm hc)
  simp only [regInsert, regLookup, if_neg hji]
  exact regLookup_filter_ne r id j h

/-- C1: for every `surface.commit` request on a registered surface, the
handler succeeds, the surface is replaced by its committed version, every
double-buffered field's current value after the commit equals that
field's pending value before (buffer, surface damage, buffer damage,
opaque region, input region, transform, scale, offset), and both pending
damage lists are empty after the commit; the drained frame callbacks are
completed with `callback.done(0)` in list order. -/
theorem commit_swaps_pending_to_current
    (registry : Reg) (fds : List Int) (globals : List (Nat × WaylandObject × Nat))
    (sid : Nat) (arg_bytes : List Nat) (s : Surface)
    (h : regLookup registry sid = some (.WlSurface s)) :
    handle_message registry fds globals sid 6 arg_bytes =
      .ok ⟨regInsert registry sid (.WlSurface (commitSurface s)),
        s.frame_callbacks.map (fun cid => .callbackDone cid 0), fds⟩
    ∧ (commitSurface s).current_buffer = s.pending_buffer
    ∧ (commitSurface s).current_surface_damage = s.pending_surface_damage
    ∧ (commitSurface s).current_buffer_damage = s.pending_buffer_damage
    ∧ (commitSurface s).current_opaque_region = s.pending_opaque_region
    ∧ (commitSurface s).current_input_region = s.pending_input_region
    ∧ (commitSurface s).current_transform = s.pending_transform
    ∧ (commitSurface s).current_scale = s.pending_scale
    ∧ (commitSurface s).current_offset = s.pending_offset
    ∧ (commitSurface s).pending_surface_damage = []
    ∧ (commitSurface s).pending_buffer_damage = [] := by
  refine ⟨?_, rfl, rfl, rfl, rfl, rfl, rfl, rfl, rfl, rfl, rfl⟩
  simp [handle_message, h, handle_wl_surface_message]

/-- Concrete fixture: a surface with an attached pending buffer and one
registered frame callback. -/
def exSurface : Surface := { pending_buffer := some 9, frame_callbacks := [100] }

/-- Concrete fixture: a client registry holding `exSurface` at id 7. -/
def exReg : Reg := regInsert initialRegistry 7 (.WlSurface exSurface)

/-- Witness for C1 at the concrete surface `exSurface` registered at id 7. -/
theorem commit_swaps_pending_to_current_witness :
    regLookup exReg 7 = some (.WlSurface exSurface)
    ∧ (handle_message exReg [] defaultGlobals 7 6 [] =
        .ok ⟨regInsert exReg 7 (.WlSurface (commitSurface exSurface)),
          exSurface.frame_callbacks.map (fun cid => .callbackDone cid 0), []⟩
      ∧ (commitSurface exSurface).current_buffer = exSurface.pending_buffer
      ∧ (commitSurface exSurface).current_surface_damage = exSurface.pending_surface_damage
      ∧ (commitSurface exSurface).current_buffer_damage = exSurface.pending_buffer_damage
      ∧ (commitSurface exSurface).current_opaque_region = exSurface.pending_opaque_region
      ∧ (commitSurface exSurface).current_input_region = exSurface.pending_input_region
      ∧ (commitSurface exSurface).current_transform = exSurface.pending_transform
      ∧ (commitSurface exSurface).current_scale = exSurface.pending_scale
      ∧ (commitSurface exSurface).current_offset = exSurface.pending_offset
      ∧ (commitSurface exSurface).pending_surface_damage = []
      ∧ (commitSurface exSurface).pending_buffer_damage = []) :=
  ⟨by decide,
   commit_swaps_pending_to_current exReg [] defaultGlobals 7 [] exSurface (by decide)⟩

/-- C10: after every commit, the pending buffer, pending opaque region
and pending input region are reset to `none` and both pending damage
lists to `[]`, while pending transform, scale and offset retain their
values; consequently a second commit re-applies the same transform,
scale and offset but replaces the current buffer and regions with
`none`. -/
theorem commit_resets_pending_and_reapplies (s : Surface) :
    (commitSurface s).pending_buffer = none
    ∧ (commitSurface s).pending_opaque_region = none
    ∧ (commitSurface s).pending_input_region = none
    ∧ (commitSurface s).pending_surface_damage = []
    ∧ (commitSurface s).pending_buffer_damage = []
    ∧ (commitSurface s).pending_transform = s.pending_transform
    ∧ (commitSurface s).pending_scale = s.pending_scale
    ∧ (commitSurface s).pending_offset = s.pending_offset
    ∧ (commitSurface (commitSurface s)).current_transform = s.pending_transform
    ∧ (commitSurface (commitSurface s)).current_scale = s.pending_scale
    ∧ (commitSurface (commitSurface s)).current_offset = s.pending_offset
    ∧ (commitSurface (commitSurface s)).current_buffer = none
    ∧ (commitSurface (commitSurface s)).current_opaque_region = none
    ∧ (commitSurface (commitSurface s)).current_input_region = none :=
  ⟨rfl, rfl, rfl, rfl, rfl, rfl, rfl, rfl, rfl, rfl, rfl, rfl, rfl, rfl⟩

/-- C3 counterexample: on a surface whose only pre-commit pending
mutation was an attach, the first commit leaves the frame-callback list
already empty and the current buffer at `some 9`, yet the second commit
still changes the surface state (it resets the current buffer to
`none`), so two successive commits with no intervening pending mutation
do not leave the state unchanged. -/
theorem double_commit_changes_state :
    (commitSurface ({ pending_buffer := some 9 } : Surface)).frame_callbacks = []
    ∧ (commitSurface ({ pending_buffer := some 9 } : Surface)).current_buffer = some 9
    ∧ (commitSurface (commitSurface ({ pending_buffer := some 9 } : Surface))).current_buffer = none
    ∧ commitSurface (commitSurface ({ pending_buffer := some 9 } : Surface))
        ≠ commitSurface ({ pending_buffer := some 9 } : Surface) := by decide

/-- C3 amended: a second commit with no intervening pending mutation
leaves all pending fields, the current transform, scale and offset
unchanged and the frame-callback list empty, but resets the current
buffer, both current damage lists and the current opaque/input regions
to `none`/`[]` — so the state is unchanged only when those were already
empty after the first commit. -/
theorem double_commit_effect (s : Surface) :
    (commitSurface (commitSurface s)).pending_buffer = (commitSurface s).pending_buffer
    ∧ (commitSurface (commitSurface s)).pending_surface_damage = (commitSurface s).pending_surface_damage
    ∧ (commitSurface (commitSurface s)).pending_buffer_damage = (commitSurface s).pending_buffer_damage
    ∧ (commitSurface (commitSurface s)).pending_opaque_region = (commitSurface s).pending_opaque_region
    ∧ (commitSurface (commitSurface s)).pending_input_region = (commitSurface s).pending_input_region
    ∧ (commitSurface (commitSurface s)).pending_transform = (commitSurface s).pending_transform
    ∧ (commitSurface (commitSurface s)).pending_scale = (commitSurface s).pending_scale
    ∧ (commitSurface (commitSurface s)).pending_offset = (commitSurface s).pending_offset
    ∧ (commitSurface (commitSurface s)).current_transform = (commitSurface s).current_transform
    ∧ (commitSurface (commitSurface s)).current_scale = (commitSurface s).current_scale
    ∧ (commitSurface (commitSurface s)).current_offset = (commitSurface s).current_offset
    ∧ (commitSurface s).frame_callbacks = []
    ∧ (commitSurface (commitSurface s)).frame_callbacks = []
    ∧ (commitSurface (commitSurface s)).current_buffer = none
    ∧ (commitSurface (commitSurface s)).current_surface_damage = []
    ∧ (commitSurface (commitSurface s)).current_buffer_damage = []
    ∧ (commitSurface (commitSurface s)).current_opaque_region = none
    ∧ (commitSurface (commitSurface s)).current_input_region = none :=
  ⟨rfl, rfl, rfl, rfl, rfl, rfl, rfl, rfl, rfl, rfl, rfl, rfl, rfl, rfl, rfl, rfl, rfl, rfl⟩

/-- Concrete fixture: a client registry holding a default surface at id 7. -/
def transformReg : Reg := regInsert initialRegistry 7 (.WlSurface {})

/-- C2: evaluation of the code at the failing input.  A
`set_buffer_transform` with out-of-range argument 8 is not rejected: the
handler returns success (no `ProtocolViolation`, the connection stays
open) and stores the raw value through the unchecked
`std::mem::transmute`; an in-range value 3 is likewise stored as the
pending transform. -/
theorem set_buffer_transform_unchecked :
    handle_message transformReg [] defaultGlobals 7 7 [8, 0, 0, 0] =
      .ok ⟨regInsert transformReg 7 (.WlSurface { pending_transform := 8 }), [], []⟩
    ∧ handle_message transformReg [] defaultGlobals 7 7 [3, 0, 0, 0] =
      .ok ⟨regInsert transformReg 7 (.WlSurface { pending_transform := 3 }), [], []⟩ := by
  decide

/-- C8: evaluation of the code at the failing input.  There is no
length-field sanity check before extraction: a frame whose header
declares total length 4 (less than the 8-byte header) passes the loop
condition and reaches `message_length as usize - 8`, which underflows
(the `.error .lenUnderflow` models that abort); a well-formed 8-byte
frame is extracted normally. -/
theorem frame_length_underflow :
    drain [1, 0, 0, 0, 0, 0, 4, 0] = .error .lenUnderflow
    ∧ drain [1, 0, 0, 0, 0, 0, 8, 0] = .ok ([⟨1, 0, []⟩], []) := by decide

/-- C4 counterexample: a request whose client-chosen `new_id` (here 1,
already bound to the display) collides with an existing binding is not a
fatal protocol error: `display.sync(new_id=1)` succeeds and silently
replaces the display object with the new callback. -/
theorem new_id_collision_silently_replaces :
    regLookup initialRegistry 1 = some .Display
    ∧ handle_message initialRegistry [] defaultGlobals 1 0 [1, 0, 0, 0] =
        .ok ⟨[(1, .Callback)], [.callbackDone 1 0], []⟩
    ∧ regLookup [(1, (.Callback : WaylandObject))] 1 = some .Callback := by decide

/-- C4 amended: for every request carrying a client-chosen new_id that is
already bound (display.sync, display.get_registry, surface.frame,
compositor.create_surface, compositor.create_region,
shm_pool.create_buffer, shm.create_pool, registry.bind) whose own
success preconditions hold — arguments decode, an fd is available and
the size is positive for create_pool, the interface bytes are valid
UTF-8 and the named global is supported for bind — handling the request
succeeds: no collision error is raised, the connection stays open, and
the existing object is silently replaced by the newly created one under
that id. -/
theorem new_id_collision_replaces_without_error :
    (∀ (reg : Reg) (fds : List Int) (g : List (Nat × WaylandObject × Nat))
       (oid : Nat) (args : List Nat) (new_id : Nat) (old : WaylandObject),
       regLookup reg oid = some .Display →
       readU32 args 0 = some new_id →
       regLookup reg new_id = some old →
       handle_message reg fds g oid 0 args =
         .ok ⟨regInsert reg new_id .Callback, [.callbackDone new_id 0], fds⟩
       ∧ regLookup (regInsert reg new_id .Callback) new_id = some .Callback)
    ∧ (∀ (reg : Reg) (fds : List Int) (g : List (Nat × WaylandObject × Nat))
       (oid : Nat) (args : List Nat) (new_id : Nat) (old : WaylandObject),
       regLookup reg oid = some .Display →
       readU32 args 0 = some new_id →
       regLookup reg new_id = some old →
       handle_message reg fds g oid 1 args =
         .ok ⟨regInsert reg new_id .Registry,
           g.map (fun gl => .registryGlobal new_id gl.1 gl.2.1.as_str gl.2.2), fds⟩
       ∧ regLookup (regInsert reg new_id .Registry) new_id = some .Registry)
    ∧ (∀ (reg : Reg) (fds : List Int) (g : List (Nat × WaylandObject × Nat))
       (sid : Nat) (args : List Nat) (new_id : Nat) (old : WaylandObject) (s : Surface),
       regLookup reg sid = some (.WlSurface s) →
       readU32 args 0 = some new_id →
       regLookup reg new_id = some old →
       handle_message reg fds g sid 3 args =
         .ok ⟨regInsert
           (regInsert reg sid
             (.WlSurface { s with frame_callbacks := s.frame_callbacks ++ [new_id] }))
           new_id .Callback, [], fds⟩
       ∧ regLookup (regInsert
           (regInsert reg sid
             (.WlSurface { s with frame_callbacks := s.frame_callbacks ++ [new_id] }))
           new_id .Callback) new_id = some .Callback)
    ∧ (∀ (reg : Reg) (fds : List Int) (g : List (Nat × WaylandObject × Nat))
       (oid : Nat) (args : List Nat) (new_id : Nat) (old : WaylandObject),
       regLookup reg oid = some .WlCompositor →
       readU32 args 0 = some new_id →
       regLookup reg new_id = some old →
       handle_message reg fds g oid 0 args =
         .ok ⟨regInsert reg new_id (.WlSurface {}), [], fds⟩
       ∧ regLookup (regInsert reg new_id (.WlSurface {})) new_id = some (.WlSurface {}))
    ∧ (∀ (reg : Reg) (fds : List Int) (g : List (Nat × WaylandObject × Nat))
       (oid : Nat) (args : List Nat) (new_id : Nat) (old : WaylandObject),
       regLookup reg oid = some .WlCompositor →
       readU32 args 0 = some new_id →
       regLookup reg new_id = some old →
       handle_message reg fds g oid 1 args =
         .ok ⟨regInsert reg new_id .WlRegion, [], fds⟩
       ∧ regLookup (regInsert reg new_id .WlRegion) new_id = some .WlRegion)
    ∧ (∀ (reg : Reg) (fds : List Int) (g : List (Nat × WaylandObject × Nat))
       (oid : Nat) (args : List Nat) (new_id : Nat) (old : WaylandObject) (fd : Int),
       regLookup reg oid = some (.ShmPool fd) →
       readU32 args 0 = some new_id → 24 ≤ args.length →
       regLookup reg new_id = some old →
       handle_message reg fds g oid 0 args =
         .ok ⟨regInsert reg new_id
           (.Buffer ⟨toI32 (leU32 args 4), toI32 (leU32 args 8), toI32 (leU32 args 12),
             toI32 (leU32 args 16), leU32 args 20, fd⟩), [], fds⟩
       ∧ regLookup (regInsert reg new_id
           (.Buffer ⟨toI32 (leU32 args 4), toI32 (leU32 args 8), toI32 (leU32 args 12),
             toI32 (leU32 args 16), leU32 args 20, fd⟩)) new_id =
           some (.Buffer ⟨toI32 (leU32 args 4), toI32 (leU32 args 8), toI32 (leU32 args 12),
             toI32 (leU32 args 16), leU32 args 20, fd⟩))
    ∧ (∀ (reg : Reg) (g : List (Nat × WaylandObject × Nat))
       (oid : Nat) (args : List Nat) (new_id : Nat) (size : Int)
       (old : WaylandObject) (fd : Int) (rest : List Int),
       regLookup reg oid = some .Shm →
       readU32 args 0 = some new_id →
       readI32 args 4 = some size → 0 < size →
       regLookup reg new_id = some old →
       handle_message reg (fd :: rest) g oid 0 args =
         .ok ⟨regInsert reg new_id (.ShmPool fd), [], rest⟩
       ∧ regLookup (regInsert reg new_id (.ShmPool fd)) new_id = some (.ShmPool fd))
    ∧ (∀ (reg : Reg) (fds : List Int) (g : List (Nat × WaylandObject × Nat))
       (oid : Nat) (args : List Nat) (name iface_len ver new_id : Nat)
       (iface : List Nat) (gl : Nat × WaylandObject × Nat) (old : WaylandObject),
       regLookup reg oid = some .Registry →
       readU32 args 0 = some name →
       readU32 args 4 = some iface_len →
       readSlice args 8 (8 + iface_len - 1) = some iface →
       isValidUtf8 iface = true →
       readU32 args (8 + (iface_len + 3) / 4 * 4) = some ver →
       readU32 args (12 + (iface_len + 3) / 4 * 4) = some new_id →
       g.find? (fun x => x.1 = name) = some gl →
       (gl.2.1 = .Shm ∨ gl.2.1 = .XdgWmBase ∨ gl.2.1 = .WlCompositor) →
       regLookup reg new_id = some old →
       handle_message reg fds g oid 0 args =
         .ok ⟨regInsert reg new_id gl.2.1,
           if gl.2.1 = .Shm then [.shmFormat new_id 0, .shmFormat new_id 0x34324752]
           else [], fds⟩
       ∧ regLookup (regInsert reg new_id gl.2.1) new_id = some gl.2.1) := by
  refine ⟨?_, ?_, ?_, ?_, ?_, ?_, ?_, ?_⟩
  · intro reg fds g oid args new_id old hobj hnid _hbound
    refine ⟨?_, regLookup_regInsert_self _ _ _⟩
    simp [handle_message, hobj, handle_wl_display_message, req, hnid, Bind.bind, Except.bind]
  · intro reg fds g oid args new_id old hobj hnid _hbound
    refine ⟨?_, regLookup_regInsert_self _ _ _⟩
    simp [handle_message, hobj, handle_wl_display_message, req, hnid, Bind.bind, Except.bind]
  · intro reg fds g sid args new_id old s hobj hnid _hbound
    refine ⟨?_, regLookup_regInsert_self _ _ _⟩
    simp [handle_message, hobj, handle_wl_surface_message, req, hnid, Bind.bind, Except.bind]
  · intro reg fds g oid args new_id old hobj hnid _hbound
    refine ⟨?_, regLookup_regInsert_self _ _ _⟩
    simp [handle_message, hobj, handle_wl_compositor_message, req, hnid, Bind.bind, Except.bind]
  · intro reg fds g oid args new_id old hobj hnid _hbound
    refine ⟨?_, regLookup_regInsert_self _ _ _⟩
    simp [handle_message, hobj, handle_wl_compositor_message, req, hnid, Bind.bind, Except.bind]
  · intro reg fds g oid args new_id old fd hobj hnid hlen _hbound
    refine ⟨?_, regLookup_regInsert_self _ _ _⟩
    have h8 : 4 + 4 ≤ args.length := by omega
    have h12 : 8 + 4 ≤ args.length := by omega
    have h16 : 12 + 4 ≤ args.length := by omega
    have h20 : 16 + 4 ≤ args.length := by omega
    have h24 : 20 + 4 ≤ args.length := by omega
    simp only [handle_message, hobj, handle_wl_shm_pool_message, req, hnid,
      Bind.bind, Except.bind]
    simp [readI32, readU32, h8, h12, h16, h20, h24]
  · intro reg g oid args new_id size old fd rest hobj hnid hsize hpos _hbound
    refine ⟨?_, regLookup_regInsert_self _ _ _⟩
    have hns : ¬(size ≤ 0) := by omega
    simp [handle_message, hobj, handle_wl_shm_message, req, hnid, hsize, hns,
      Bind.bind, Except.bind]
  · intro reg fds g oid args name iface_len ver new_id iface gl old
      hobj hname hlen hslice hvalid hver hnid hfind hkind _hbound
    refine ⟨?_, regLookup_regInsert_self _ _ _⟩
    have hslice2 : readSlice args 8 (7 + iface_len) = some iface := by
      rw [show (7 : Nat) + iface_len = 8 + iface_len - 1 by omega]
      exact hslice
    rcases hkind with hk | hk | hk <;>
      simp [handle_message, hobj, handle_wl_registry_message, req, hname, hlen, hslice,
        hslice2, hvalid, hver, hnid, hfind, hk, Bind.bind, Except.bind]

/-- Witness for C4 amended: `display.sync(new_id=1)` on a fresh client,
where id 1 is already bound to the display object. -/
theorem new_id_collision_replaces_without_error_witness :
    regLookup initialRegistry 1 = some .Display
    ∧ readU32 [1, 0, 0, 0] 0 = some 1
    ∧ (handle_message initialRegistry [] defaultGlobals 1 0 [1, 0, 0, 0] =
        .ok ⟨regInsert initialRegistry 1 .Callback, [.callbackDone 1 0], []⟩
      ∧ regLookup (regInsert initialRegistry 1 .Callback) 1 = some .Callback) :=
  ⟨by decide, by decide,
   new_id_collision_replaces_without_error.1 initialRegistry [] defaultGlobals 1
     [1, 0, 0, 0] 1 .Display (by decide) (by decide) (by decide)⟩

/-- Concrete fixture: a client registry with a registry object at id 2. -/
def bindReg : Reg := regInsert initialRegistry 2 .Registry

/-- Concrete bind request bytes: name 1 (the `wl_shm` global), interface
string "wl_compositor" (14 bytes including nul, padded to 16), version 1,
new_id 5. -/
def bindArgs : List Nat :=
  [1, 0, 0, 0, 14, 0, 0, 0,
   119, 108, 95, 99, 111, 109, 112, 111, 115, 105, 116, 111, 114, 0, 0, 0,
   1, 0, 0, 0, 5, 0, 0, 0]

/-- C6 counterexample: a bind whose client-sent interface string is
"wl_compositor" but whose name (1) denotes the `wl_shm` global still
installs a `Shm` object under new_id 5 (and emits the two shm.format
events), although "wl_compositor" does not match the kind `wl_shm` — the
interface string is not checked against the global's kind. -/
theorem bind_ignores_interface_string :
    readSlice bindArgs 8 21 = some ("wl_compositor".data.map Char.toNat)
    ∧ WaylandObject.Shm.as_str = "wl_shm"
    ∧ handle_message bindReg [] defaultGlobals 2 0 bindArgs =
        .ok ⟨regInsert bindReg 5 .Shm, [.shmFormat 5 0, .shmFormat 5 0x34324752], []⟩
    ∧ regLookup (regInsert bindReg 5 .Shm) 5 = some .Shm := by decide

/-- C6 amended: a bind whose interface bytes are valid UTF-8 (invalid
bytes panic the task in `String::from_utf8(...).unwrap()`) installs an
object under new_id whenever the name is found in the globals table and
the stored kind of that global is supported; beyond UTF-8 validity the
client-sent interface string plays no part — its content is universally
quantified and never compared against the global's kind.  When no global
has the requested name, the bind is a logged no-op: the handler succeeds
with the registry unchanged and no events. -/
theorem bind_matches_by_name_only :
    (∀ (reg : Reg) (fds : List Int) (g : List (Nat × WaylandObject × Nat))
       (oid : Nat) (args : List Nat) (name iface_len ver new_id : Nat)
       (iface : List Nat) (gl : Nat × WaylandObject × Nat),
       regLookup reg oid = some .Registry →
       readU32 args 0 = some name →
       readU32 args 4 = some iface_len →
       readSlice args 8 (8 + iface_len - 1) = some iface →
       isValidUtf8 iface = true →
       readU32 args (8 + (iface_len + 3) / 4 * 4) = some ver →
       readU32 args (12 + (iface_len + 3) / 4 * 4) = some new_id →
       g.find? (fun x => x.1 = name) = some gl →
       (gl.2.1 = .Shm ∨ gl.2.1 = .XdgWmBase ∨ gl.2.1 = .WlCompositor) →
       handle_message reg fds g oid 0 args =
         .ok ⟨regInsert reg new_id gl.2.1,
           if gl.2.1 = .Shm then [.shmFormat new_id 0, .shmFormat new_id 0x34324752]
           else [], fds⟩)
    ∧ (∀ (reg : Reg) (fds : List Int) (g : List (Nat × WaylandObject × Nat))
       (oid : Nat) (args : List Nat) (name iface_len ver new_id : Nat)
       (iface : List Nat),
       regLookup reg oid = some .Registry →
       readU32 args 0 = some name →
       readU32 args 4 = some iface_len →
       readSlice args 8 (8 + iface_len - 1) = some iface →
       isValidUtf8 iface = true →
       readU32 args (8 + (iface_len + 3) / 4 * 4) = some ver →
       readU32 args (12 + (iface_len + 3) / 4 * 4) = some new_id →
       g.find? (fun x => x.1 = name) = none →
       handle_message reg fds g oid 0 args = .ok ⟨reg, [], fds⟩) := by
  constructor
  · intro reg fds g oid args name iface_len ver new_id iface gl
      hobj hname hlen hslice hvalid hver hnid hfind hkind
    have hslice2 : readSlice args 8 (7 + iface_len) = some iface := by
      rw [show (7 : Nat) + iface_len = 8 + iface_len - 1 by omega]
      exact hslice
    rcases hkind with hk | hk | hk <;>
      simp [handle_message, hobj, handle_wl_registry_message, req, hname, hlen, hslice,
        hslice2, hvalid, hver, hnid, hfind, hk, Bind.bind, Except.bind]
  · intro reg fds g oid args name iface_len ver new_id iface
      hobj hname hlen hslice hvalid hver hnid hfind
    have hslice2 : readSlice args 8 (7 + iface_len) = some iface := by
      rw [show (7 : Nat) + iface_len = 8 + iface_len - 1 by omega]
      exact hslice
    simp [handle_message, hobj, handle_wl_registry_message, req, hname, hlen, hslice,
      hslice2, hvalid, hver, hnid, hfind, Bind.bind, Except.bind]

/-- Concrete bind request bytes: name 2 (the `wl_compositor` global),
interface string "wl_shm" (7 bytes including nul, padded to 8),
version 1, new_id 6. -/
def bindArgs2 : List Nat :=
  [2, 0, 0, 0, 7, 0, 0, 0, 119, 108, 95, 115, 104, 109, 0, 0,
   1, 0, 0, 0, 6, 0, 0, 0]

/-- Concrete bind request bytes: name 9 (no such global), interface
string "wl_shm", version 1, new_id 6. -/
def bindArgs3 : List Nat :=
  [9, 0, 0, 0, 7, 0, 0, 0, 119, 108, 95, 115, 104, 109, 0, 0,
   1, 0, 0, 0, 6, 0, 0, 0]

/-- Witness for C6 amended: binding name 2 installs the compositor even
though the client string says "wl_shm", and binding the unknown name 9 is
a registry-preserving no-op. -/
theorem bind_matches_by_name_only_witness :
    regLookup bindReg 2 = some .Registry
    ∧ readU32 bindArgs2 0 = some 2
    ∧ readU32 bindArgs2 4 = some 7
    ∧ readSlice bindArgs2 8 (8 + 7 - 1) = some ("wl_shm".data.map Char.toNat)
    ∧ isValidUtf8 ("wl_shm".data.map Char.toNat) = true
    ∧ readU32 bindArgs2 16 = some 1
    ∧ readU32 bindArgs2 20 = some 6
    ∧ defaultGlobals.find? (fun x => x.1 = 2) = some (2, .WlCompositor, 6)
    ∧ handle_message bindReg [] defaultGlobals 2 0 bindArgs2 =
        .ok ⟨regInsert bindReg 6 .WlCompositor,
          if (WaylandObject.WlCompositor = .Shm)
          then [.shmFormat 6 0, .shmFormat 6 0x34324752] else [], []⟩
    ∧ defaultGlobals.find? (fun x => x.1 = 9) = none
    ∧ handle_message bindReg [] defaultGlobals 2 0 bindArgs3 =
        .ok ⟨bindReg, [], []⟩ :=
  ⟨by decide, by decide, by decide, by decide, by decide, by decide, by decide,
   by decide,
   bind_matches_by_name_only.1 bindReg [] defaultGlobals 2 bindArgs2 2 7 1 6
     ("wl_shm".data.map Char.toNat) (2, .WlCompositor, 6)
     (by decide) (by decide) (by decide) (by decide) (by decide) (by decide)
     (by decide) (by decide) (Or.inr (Or.inr rfl)),
   by decide,
   bind_matches_by_name_only.2 bindReg [] defaultGlobals 2 bindArgs3 9 7 1 6
     ("wl_shm".data.map Char.toNat)
     (by decide) (by decide) (by decide) (by decide) (by decide) (by decide)
     (by decide) (by decide)⟩

/-- Unfolding step of the dispatch loop at a successfully handled message. -/
lemma runMessages_cons_ok {reg : Reg} {fds : List Int}
    {g : List (Nat × WaylandObject × Nat)} {oid op : Nat} {args : List Nat}
    {r : HandlerResult} {ms : List (Nat × Nat × List Nat)}
    (h : handle_message reg fds g oid op args = .ok r) :
    runMessages reg fds g ((oid, op, args) :: ms) =
      (r.events ++ (runMessages r.registry r.fds g ms).1,
        (runMessages r.registry r.fds g ms).2) := by
  simp [runMessages, h]

/-- Running a sequence of `frame(new_id)` requests on a registered surface
followed by one `commit` appends the ids to the callback list in order
and the commit emits one `callback.done(0)` per list entry, in list
order, leaving the committed surface with an empty callback list. -/
lemma runMessages_frames_commit (ids : List Nat) :
    ∀ (reg : Reg) (fds : List Int) (g : List (Nat × WaylandObject × Nat))
      (sid : Nat) (s : Surface),
      regLookup reg sid = some (.WlSurface s) →
      sid ∉ ids → (∀ i ∈ ids, i < 4294967296) →
      ∃ reg2,
        runMessages reg fds g
          (ids.map (fun i => (sid, 3, leBytes4 i)) ++ [(sid, 6, [])]) =
          ((s.frame_callbacks ++ ids).map (fun i => Event.callbackDone i 0),
            .ok (reg2, fds))
        ∧ regLookup reg2 sid =
            some (.WlSurface (commitSurface
              { s with frame_callbacks := s.frame_callbacks ++ ids })) := by
  induction ids with
  | nil =>
    intro reg fds g sid s h _ _
    refine ⟨regInsert reg sid (.WlSurface (commitSurface s)), ?_, ?_⟩
    · simp [runMessages, handle_message, h, handle_wl_surface_message]
    · simp [regLookup_regInsert_self]
  | cons i rest ih =>
    intro reg fds g sid s h hnotin hbound
    have hne : sid ≠ i := fun hc => hnotin (hc ▸ List.mem_cons_self i rest)
    have hrest : sid ∉ rest := fun hc => hnotin (List.mem_cons_of_mem i hc)
    have hib : i < 4294967296 := hbound i (List.mem_cons_self i rest)
    have hrb : ∀ j ∈ rest, j < 4294967296 :=
      fun j hj => hbound j (List.mem_cons_of_mem i hj)
    have hmsg : handle_message reg fds g sid 3 (leBytes4 i) =
        .ok ⟨regInsert
          (regInsert reg sid
            (.WlSurface { s with frame_callbacks := s.frame_callbacks ++ [i] }))
          i .Callback, [], fds⟩ := by
      simp [handle_message, h, handle_wl_surface_message, req, readU32_leBytes4 i hib,
        Bind.bind, Except.bind]
    have hlook : regLookup
        (regInsert
          (regInsert reg sid
            (.WlSurface { s with frame_callbacks := s.frame_callbacks ++ [i] }))
          i .Callback) sid =
        some (.WlSurface { s with frame_callbacks := s.frame_callbacks ++ [i] }) := by
      rw [regLookup_regInsert_ne _ _ _ _ hne, regLookup_regInsert_self]
    obtain ⟨reg2, hrun, hreg2⟩ :=
      ih (regInsert
            (regInsert reg sid
              (.WlSurface { s with frame_callbacks := s.frame_callbacks ++ [i] }))
            i .Callback) fds g sid
        { s with frame_callbacks := s.frame_callbacks ++ [i] } hlook hrest hrb
    refine ⟨reg2, ?_, ?_⟩
    · rw [List.map_cons, List.cons_append, runMessages_cons_ok hmsg]
      rw [hrun]
      simp
    · rw [hreg2]
      simp

/-- C5: for every sequence of `frame(new_id)` requests on a surface with no
pending callbacks followed by a commit on that surface, the run emits
exactly the `callback.done(serial=0)` events of the registered ids, in
registration order; the surface's frame-callback list is empty
afterwards; and when the ids are distinct, each registered id receives
exactly one `callback.done` event during that commit. -/
theorem frame_callbacks_done_on_commit
    (ids : List Nat) (reg : Reg) (fds : List Int)
    (g : List (Nat × WaylandObject × Nat)) (sid : Nat) (s : Surface)
    (hobj : regLookup reg sid = some (.WlSurface s))
    (hcb : s.frame_callbacks = [])
    (hnotin : sid ∉ ids)
    (hbound : ∀ i ∈ ids, i < 4294967296) :
    (runMessages reg fds g
        (ids.map (fun i => (sid, 3, leBytes4 i)) ++ [(sid, 6, [])])).1 =
      ids.map (fun i => Event.callbackDone i 0)
    ∧ (∃ reg2 s2,
        runMessages reg fds g
            (ids.map (fun i => (sid, 3, leBytes4 i)) ++ [(sid, 6, [])]) =
          (ids.map (fun i => Event.callbackDone i 0), .ok (reg2, fds))
        ∧ regLookup reg2 sid = some (.WlSurface s2) ∧ s2.frame_callbacks = [])
    ∧ (ids.Nodup → ∀ i ∈ ids,
        ((runMessages reg fds g
            (ids.map (fun i => (sid, 3, leBytes4 i)) ++ [(sid, 6, [])])).1).count
          (Event.callbackDone i 0) = 1) := by
  obtain ⟨reg2, hrun, hreg2⟩ :=
    runMessages_frames_commit ids reg fds g sid s hobj hnotin hbound
  rw [hcb] at hrun hreg2
  simp only [List.nil_append] at hrun hreg2
  have hinj : Function.Injective (fun i : Nat => Event.callbackDone i 0) := by
    intro a b hab
    simpa using hab
  refine ⟨by rw [hrun], ⟨reg2, _, hrun, hreg2, rfl⟩, ?_⟩
  intro hnodup i hmem
  rw [hrun]
  simp only []
  rw [List.count_map_of_injective ids (fun i => Event.callbackDone i 0) hinj i]
  exact List.count_eq_one_of_mem hnodup hmem

/-- Witness for C5: `frame(100)`, `frame(101)`, `commit()` on the surface
at id 7 (scenario 5 of the spec). -/
theorem frame_callbacks_done_on_commit_witness :
    regLookup transformReg 7 = some (.WlSurface {})
    ∧ ({} : Surface).frame_callbacks = []
    ∧ (7 ∉ [100, 101])
    ∧ (∀ i ∈ [100, 101], i < 4294967296)
    ∧ ((runMessages transformReg [] defaultGlobals
          ([100, 101].map (fun i => (7, 3, leBytes4 i)) ++ [(7, 6, [])])).1 =
        [100, 101].map (fun i => Event.callbackDone i 0)
      ∧ (∃ reg2 s2,
          runMessages transformReg [] defaultGlobals
              ([100, 101].map (fun i => (7, 3, leBytes4 i)) ++ [(7, 6, [])]) =
            ([100, 101].map (fun i => Event.callbackDone i 0), .ok (reg2, []))
          ∧ regLookup reg2 7 = some (.WlSurface s2) ∧ s2.frame_callbacks = [])
      ∧ ([100, 101].Nodup → ∀ i ∈ [100, 101],
          ((runMessages transformReg [] defaultGlobals
              ([100, 101].map (fun i => (7, 3, leBytes4 i)) ++ [(7, 6, [])])).1).count
            (Event.callbackDone i 0) = 1)) :=
  ⟨by decide, rfl, by decide, by decide,
   frame_callbacks_done_on_commit [100, 101] transformReg [] defaultGlobals 7 {}
     (by decide) rfl (by decide) (by decide)⟩

/-- Every event a successful display handler emits is a callback.done or
registry.global, never a display.error. -/
lemma display_events_no_error
    {reg : Reg} {fds : List Int} {g : List (Nat × WaylandObject × Nat)}
    {op : Nat} {args : List Nat} {r : HandlerResult}
    (h : handle_wl_display_message reg fds g op args = .ok r) :
    ∀ e ∈ r.events, e.isDisplayError = false := by
  intro e he
  unfold handle_wl_display_message at h
  simp only [req, Bind.bind, Except.bind] at h
  repeat' split at h
  all_goals
    first
      | exact Except.noConfusion h
      | (injection h with h2; subst h2; revert he; simp [Event.isDisplayError])
  all_goals (try (rintro rfl; rfl))
  all_goals (rintro a b c _ rfl; rfl)

/-- Every event a successful registry handler emits is an shm.format,
never a display.error. -/
lemma registry_events_no_error
    {reg : Reg} {fds : List Int} {g : List (Nat × WaylandObject × Nat)}
    {op : Nat} {args : List Nat} {r : HandlerResult}
    (h : handle_wl_registry_message reg fds g op args = .ok r) :
    ∀ e ∈ r.events, e.isDisplayError = false := by
  intro e he
  unfold handle_wl_registry_message at h
  simp only [req, Bind.bind, Except.bind] at h
  repeat' split at h
  all_goals
    first
      | exact Except.noConfusion h
      | (injection h with h2; subst h2; revert he; simp [Event.isDisplayError])
  all_goals (rintro (rfl | rfl) <;> rfl)

/-- The shm handler emits no events at all on success. -/
lemma shm_events_no_error
    {reg : Reg} {fds : List Int} {oid op : Nat} {args : List Nat}
    {r : HandlerResult}
    (h : handle_wl_shm_message reg fds oid op args = .ok r) :
    ∀ e ∈ r.events, e.isDisplayError = false := by
  intro e he
  unfold handle_wl_shm_message at h
  simp only [req, Bind.bind, Except.bind] at h
  repeat' split at h
  all_goals
    first
      | exact Except.noConfusion h
      | (injection h with h2; subst h2; revert he; simp [Event.isDisplayError])

/-- The shm-pool handler emits no events at all on success. -/
lemma shm_pool_events_no_error
    {reg : Reg} {fds : List Int} {oid op : Nat} {args : List Nat} {fd : Int}
    {r : HandlerResult}
    (h : handle_wl_shm_pool_message reg fds oid op args fd = .ok r) :
    ∀ e ∈ r.events, e.isDisplayError = false := by
  intro e he
  unfold handle_wl_shm_pool_message at h
  simp only [req, Bind.bind, Except.bind] at h
  repeat' split at h
  all_goals
    first
      | exact Except.noConfusion h
      | (injection h with h2; subst h2; revert he; simp [Event.isDisplayError])

/-- The buffer handler emits no events at all on success. -/
lemma buffer_events_no_error
    {reg : Reg} {fds : List Int} {oid op : Nat} {r : HandlerResult}
    (h : handle_wl_buffer_message reg fds oid op = .ok r) :
    ∀ e ∈ r.events, e.isDisplayError = false := by
  intro e he
  unfold handle_wl_buffer_message at h
  split at h
  all_goals
    (injection h with h2; subst h2; revert he; simp [Event.isDisplayError])

/-- The compositor handler emits no events at all on success. -/
lemma compositor_events_no_error
    {reg : Reg} {fds : List Int} {op : Nat} {args : List Nat}
    {r : HandlerResult}
    (h : handle_wl_compositor_message reg fds op args = .ok r) :
    ∀ e ∈ r.events, e.isDisplayError = false := by
  intro e he
  unfold handle_wl_compositor_message at h
  simp only [req, Bind.bind, Except.bind] at h
  repeat' split at h
  all_goals
    first
      | exact Except.noConfusion h
      | (injection h with h2; subst h2; revert he; simp [Event.isDisplayError])

/-- Every event a successful surface handler emits is a callback.done,
never a display.error. -/
lemma surface_events_no_error
    {reg : Reg} {fds : List Int} {oid op : Nat} {args : List Nat}
    {s : Surface} {r : HandlerResult}
    (h : handle_wl_surface_message reg fds oid op args s = .ok r) :
    ∀ e ∈ r.events, e.isDisplayError = false := by
  intro e he
  unfold handle_wl_surface_message at h
  simp only [req, Bind.bind, Except.bind] at h
  repeat' split at h
  all_goals
    first
      | exact Except.noConfusion h
      | (injection h with h2; subst h2; revert he; simp [Event.isDisplayError])
  all_goals (rintro a _ rfl; rfl)

/-- No request handler ever emits a display.error event. -/
lemma handle_message_events_no_error
    {reg : Reg} {fds : List Int} {g : List (Nat × WaylandObject × Nat)}
    {oid op : Nat} {args : List Nat} {r : HandlerResult}
    (h : handle_message reg fds g oid op args = .ok r) :
    ∀ e ∈ r.events, e.isDisplayError = false := by
  unfold handle_message at h
  split at h
  · injection h with h2
    subst h2
    intro e he
    simp at he
  · split at h
    · exact display_events_no_error h
    · exact registry_events_no_error h
    · injection h with h2; subst h2; intro e he; simp at he
    · exact shm_events_no_error h
    · exact shm_pool_events_no_error h
    · exact buffer_events_no_error h
    · exact compositor_events_no_error h
    · exact surface_events_no_error h
    · injection h with h2; subst h2; intro e he; simp at he
    · injection h with h2; subst h2; intro e he; simp at he

/-- No event emitted across a whole dispatch run is a display.error. -/
lemma runMessages_events_no_error (msgs : List (Nat × Nat × List Nat)) :
    ∀ (reg : Reg) (fds : List Int) (g : List (Nat × WaylandObject × Nat)),
      ∀ e ∈ (runMessages reg fds g msgs).1, e.isDisplayError = false := by
  induction msgs with
  | nil =>
    intro reg fds g e he
    simp [runMessages] at he
  | cons m ms ih =>
    intro reg fds g e he
    obtain ⟨oid, op, args⟩ := m
    cases hh : handle_message reg fds g oid op args with
    | ok r =>
      rw [runMessages_cons_ok hh] at he
      simp only [List.mem_append] at he
      rcases he with he | he
      · exact handle_message_events_no_error hh e he
      · exact ih r.registry r.fds g e he
    | error err =>
      simp [runMessages, hh] at he

/-- Concrete fixture: a client registry with an shm object at id 4. -/
def shmReg : Reg := regInsert initialRegistry 4 .Shm

/-- C9 counterexample: a handler error (shm.create_pool with an empty fd
queue) terminates the run in the error-shutdown outcome with no events
written at all — in particular no best-effort display.error(code,
message) event precedes the shutdown, contrary to the claim. -/
theorem handler_error_writes_no_display_error :
    runMessages shmReg [] defaultGlobals [(4, 0, [5, 0, 0, 0, 0, 16, 0, 0])] =
      ([], .error .missingFd) := by decide

/-- C9 amended: on a handler error the client task logs, shuts the write
half of the socket and exits releasing all per-client state, writing no
display.error event (no event emitted during any run is a display.error,
the error outcome itself appends nothing); non-fatal conditions — here a
request targeting an unknown object id — are logged and leave the
registry, the event stream and the connection untouched. -/
theorem error_path_silent_and_nonfatal_skip :
    (∀ (msgs : List (Nat × Nat × List Nat)) (reg : Reg) (fds : List Int)
       (g : List (Nat × WaylandObject × Nat)),
       ∀ e ∈ (runMessages reg fds g msgs).1, e.isDisplayError = false)
    ∧ (∀ (reg : Reg) (fds : List Int) (g : List (Nat × WaylandObject × Nat))
       (oid op : Nat) (args : List Nat),
       regLookup reg oid = none →
       handle_message reg fds g oid op args = .ok ⟨reg, [], fds⟩) := by
  constructor
  · exact fun msgs reg fds g => runMessages_events_no_error msgs reg fds g
  · intro reg fds g oid op args h
    simp [handle_message, h]

/-- Witness for C9 amended: the callback.done event of a sync run is not
a display.error, and a request to unknown id 99 is a non-fatal no-op. -/
theorem error_path_silent_and_nonfatal_skip_witness :
    (Event.callbackDone 3 0) ∈
      (runMessages initialRegistry [] defaultGlobals [(1, 0, [3, 0, 0, 0])]).1
    ∧ (Event.callbackDone 3 0).isDisplayError = false
    ∧ regLookup initialRegistry 99 = none
    ∧ handle_message initialRegistry [] defaultGlobals 99 0 [] =
        .ok ⟨initialRegistry, [], []⟩ :=
  ⟨by decide,
   error_path_silent_and_nonfatal_skip.1 [(1, 0, [3, 0, 0, 0])] initialRegistry []
     defaultGlobals (Event.callbackDone 3 0) (by decide),
   by decide,
   error_path_silent_and_nonfatal_skip.2 initialRegistry [] defaultGlobals 99 0 []
     (by decide)⟩

/-- One unfolding of the extraction loop body. -/
lemma drainAux_succ (fuel : Nat) (q : List Nat) :
    drainAux (fuel + 1) q =
      if 8 ≤ q.length ∧ leU16 q 6 ≤ q.length then
        if 8 ≤ leU16 q 6 then
          match drainAux fuel (q.drop (leU16 q 6)) with
          | .ok (ms, r) => .ok (decodeMsg (q.take (leU16 q 6)) :: ms, r)
          | .error e => .error e
        else .error .lenUnderflow
      else .ok ([], q) := rfl

/-- Extra fuel beyond the queue length does not change the result: each
iteration consumes at least 8 bytes. -/
lemma drainAux_bump : ∀ (fuel : Nat) (q : List Nat), q.length ≤ fuel →
    drainAux (fuel + 1) q = drainAux fuel q := by
  intro fuel
  induction fuel with
  | zero =>
    intro q hq
    have hq0 : q = [] := List.length_eq_zero.mp (Nat.le_zero.mp hq)
    subst hq0
    rw [drainAux_succ]
    simp [drainAux]
  | succ n ih =>
    intro q hq
    rw [drainAux_succ (n + 1) q, drainAux_succ n q]
    by_cases hc : 8 ≤ q.length ∧ leU16 q 6 ≤ q.length
    · rw [if_pos hc, if_pos hc]
      by_cases h8 : 8 ≤ leU16 q 6
      · rw [if_pos h8, if_pos h8,
          ih (q.drop (leU16 q 6)) (by rw [List.length_drop]; omega)]
      · rw [if_neg h8, if_neg h8]
    · rw [if_neg hc, if_neg hc]

/-- Fuel monotonicity, iterated. -/
lemma drainAux_add (fuel k : Nat) (q : List Nat) (h : q.length ≤ fuel) :
    drainAux (fuel + k) q = drainAux fuel q := by
  induction k with
  | zero => rfl
  | succ n ih =>
    rw [show fuel + (n + 1) = (fuel + n) + 1 by omega,
      drainAux_bump (fuel + n) q (by omega), ih]

/-- Any sufficient fuel computes `drain`. -/
lemma drainAux_eq_drain (fuel : Nat) (q : List Nat) (h : q.length ≤ fuel) :
    drainAux fuel q = drain q := by
  unfold drain
  rw [show fuel = q.length + (fuel - q.length) by omega,
    drainAux_add q.length (fuel - q.length) q (le_refl _)]

/-- The peeked header length field only depends on the first 8 bytes. -/
lemma leU16_append (q b : List Nat) (h : 8 ≤ q.length) :
    leU16 (q ++ b) 6 = leU16 q 6 := by
  unfold leU16
  rw [List.getD_append _ _ _ _ (by omega), List.getD_append _ _ _ _ (by omega)]

/-- The loop stops when fewer than 8 bytes or fewer than the declared
length are queued. -/
lemma drain_stop {q : List Nat} (hc : ¬(8 ≤ q.length ∧ leU16 q 6 ≤ q.length)) :
    drain q = .ok ([], q) := by
  cases hl : q.length with
  | zero =>
    rw [drain, hl]
    rfl
  | succ m =>
    have h1 : drain q = drainAux (m + 1) q := by rw [drain, hl]
    rw [h1, drainAux_succ, if_neg hc]

/-- The loop extracts one frame when a complete one is queued and its
length field is at least 8. -/
lemma drain_step {q : List Nat} (hc : 8 ≤ q.length ∧ leU16 q 6 ≤ q.length)
    (h8 : 8 ≤ leU16 q 6) :
    drain q =
      match drain (q.drop (leU16 q 6)) with
      | .ok (ms, r) => .ok (decodeMsg (q.take (leU16 q 6)) :: ms, r)
      | .error e => .error e := by
  cases hl : q.length with
  | zero => omega
  | succ m =>
    have h1 : drain q = drainAux (m + 1) q := by rw [drain, hl]
    rw [h1, drainAux_succ, if_pos hc, if_pos h8,
      drainAux_eq_drain m (q.drop (leU16 q 6)) (by rw [List.length_drop]; omega)]

/-- A complete-by-count frame whose length field is below 8 aborts (the
`usize` underflow). -/
lemma drain_panic {q : List Nat} (hc : 8 ≤ q.length ∧ leU16 q 6 ≤ q.length)
    (h8 : ¬8 ≤ leU16 q 6) :
    drain q = .error .lenUnderflow := by
  cases hl : q.length with
  | zero => omega
  | succ m =>
    have h1 : drain q = drainAux (m + 1) q := by rw [drain, hl]
    rw [h1, drainAux_succ, if_pos hc, if_neg h8]

/-- Draining `q` and then continuing on the residual plus `b` — the right
side of the incremental-drain equation. -/
def drainCombine (r : Except DrainErr (List WireMsg × List Nat)) (b : List Nat) :
    Except DrainErr (List WireMsg × List Nat) :=
  match r with
  | .ok (ms, rest) =>
    match drain (rest ++ b) with
    | .ok (ms2, r2) => .ok (ms ++ ms2, r2)
    | .error e => .error e
  | .error e => .error e

/-- Incremental drain: appending bytes extracts the frames of the prefix
first and continues from its residual. -/
lemma drain_append_aux : ∀ (fuel : Nat) (q b : List Nat), q.length ≤ fuel →
    drain (q ++ b) = drainCombine (drain q) b := by
  intro fuel
  induction fuel with
  | zero =>
    intro q b hq
    have hq0 : q = [] := List.length_eq_zero.mp (Nat.le_zero.mp hq)
    subst hq0
    have h0 : drain ([] : List Nat) = .ok ([], []) := rfl
    rw [List.nil_append, h0, drainCombine, List.nil_append]
    cases hd : drain b with
    | ok p =>
      obtain ⟨ms2, r2⟩ := p
      simp
    | error e => simp
  | succ n ih =>
    intro q b hq
    by_cases hc : 8 ≤ q.length ∧ leU16 q 6 ≤ q.length
    · by_cases h8 : 8 ≤ leU16 q 6
      · have hcb : 8 ≤ (q ++ b).length ∧ leU16 (q ++ b) 6 ≤ (q ++ b).length := by
          constructor
          · rw [List.length_append]; omega
          · rw [leU16_append q b hc.1, List.length_append]; omega
        have h8b : 8 ≤ leU16 (q ++ b) 6 := by rw [leU16_append q b hc.1]; exact h8
        rw [drain_step hcb h8b, leU16_append q b hc.1,
          List.take_append_of_le_length hc.2, List.drop_append_of_le_length hc.2,
          ih (q.drop (leU16 q 6)) b (by rw [List.length_drop]; omega),
          drain_step hc h8]
        cases hd : drain (q.drop (leU16 q 6)) with
        | ok p =>
          obtain ⟨ms, r⟩ := p
          rw [drainCombine, drainCombine]
          cases hd2 : drain (r ++ b) with
          | ok p2 =>
            obtain ⟨ms2, r2⟩ := p2
            simp
          | error e => simp
        | error e => simp [drainCombine]
      · have hcb : 8 ≤ (q ++ b).length ∧ leU16 (q ++ b) 6 ≤ (q ++ b).length := by
          constructor
          · rw [List.length_append]; omega
          · rw [leU16_append q b hc.1, List.length_append]; omega
        have h8b : ¬8 ≤ leU16 (q ++ b) 6 := by rw [leU16_append q b hc.1]; exact h8
        rw [drain_panic hcb h8b, drain_panic hc h8]
        rfl
    · rw [drain_stop hc, drainCombine]
      cases hd : drain (q ++ b) with
      | ok p =>
        obtain ⟨ms2, r2⟩ := p
        simp
      | error e => simp

/-- Incremental drain, stated without fuel. -/
lemma drain_append (q b : List Nat) :
    drain (q ++ b) = drainCombine (drain q) b :=
  drain_append_aux q.length q b (le_refl _)

/-- The residual left by a successful drain is itself fully drained. -/
lemma drain_residual_aux : ∀ (fuel : Nat) (q : List Nat), q.length ≤ fuel →
    ∀ {ms r}, drain q = .ok (ms, r) → drain r = .ok ([], r) := by
  intro fuel
  induction fuel with
  | zero =>
    intro q hq ms r h
    have hq0 : q = [] := List.length_eq_zero.mp (Nat.le_zero.mp hq)
    subst hq0
    have h0 : drain ([] : List Nat) = .ok ([], []) := rfl
    rw [h0] at h
    injection h with h2
    injection h2 with h3 h4
    subst h4
    exact h0
  | succ n ih =>
    intro q hq ms r h
    by_cases hc : 8 ≤ q.length ∧ leU16 q 6 ≤ q.length
    · by_cases h8 : 8 ≤ leU16 q 6
      · rw [drain_step hc h8] at h
        cases hd : drain (q.drop (leU16 q 6)) with
        | ok p =>
          obtain ⟨ms2, r2⟩ := p
          rw [hd] at h
          injection h with h2
          injection h2 with h3 h4
          subst h4
          exact ih (q.drop (leU16 q 6)) (by rw [List.length_drop]; omega) hd
        | error e =>
          rw [hd] at h
          exact Except.noConfusion h
      · rw [drain_panic hc h8] at h
        exact Except.noConfusion h
    · rw [drain_stop hc] at h
      injection h with h2
      injection h2 with h3 h4
      subst h4
      exact drain_stop hc

/-- Residual stability, stated without fuel. -/
lemma drain_residual {q ms r} (h : drain q = .ok (ms, r)) :
    drain r = .ok ([], r) :=
  drain_residual_aux q.length q (le_refl _) h


/-- Unfolding step of the receive loop at a successfully drained chunk. -/
lemma processChunks_cons_ok {q c : List Nat} {cs : List (List Nat)}
    {ms : List WireMsg} {r : List Nat}
    (h : drain (q ++ c) = .ok (ms, r)) :
    processChunks q (c :: cs) =
      match processChunks r cs with
      | .ok (ms2, r2) => .ok (ms ++ ms2, r2)
      | .error e => .error e := by
  rw [processChunks, h]

/-- Unfolding step of the receive loop at a failing chunk. -/
lemma processChunks_cons_error {q c : List Nat} {cs : List (List Nat)}
    {e : DrainErr} (h : drain (q ++ c) = .error e) :
    processChunks q (c :: cs) = .error e := by
  rw [processChunks, h]

/-- Reduction of `drainCombine` at a successful prefix drain. -/
lemma drainCombine_ok {ms : List WireMsg} {rest b : List Nat} :
    drainCombine (.ok (ms, rest)) b =
      match drain (rest ++ b) with
      | .ok (ms2, r2) => .ok (ms ++ ms2, r2)
      | .error e => .error e := rfl

/-- Reduction of `drainCombine` at a failing prefix drain. -/
lemma drainCombine_error {e : DrainErr} {b : List Nat} :
    drainCombine (.error e) b = .error e := rfl

/-- Chunked reception equals one drain of the whole stream: from a fully
drained queue, processing any chunk list dispatches exactly the frames
that a single drain of the concatenation extracts. -/
lemma processChunks_drain : ∀ (chunks : List (List Nat)) (q : List Nat),
    drain q = .ok ([], q) →
    processChunks q chunks = drain (q ++ chunks.flatten) := by
  intro chunks
  induction chunks with
  | nil =>
    intro q hq
    rw [processChunks]
    show Except.ok ([], q) = drain (q ++ [])
    rw [List.append_nil, hq]
  | cons c cs ih =>
    intro q hq
    rw [show (c :: cs).flatten = c ++ cs.flatten from rfl, ← List.append_assoc,
      drain_append (q ++ c) cs.flatten]
    cases hd : drain (q ++ c) with
    | ok p =>
      obtain ⟨ms, r⟩ := p
      have hr : drain r = .ok ([], r) := drain_residual hd
      rw [processChunks_cons_ok hd, ih r hr, drainCombine_ok]
    | error e =>
      rw [processChunks_cons_error hd, drainCombine_error]

/-- A concatenation of well-formed frames drains completely. -/
lemma wfstream_drain : ∀ {s : List Nat}, WfStream s →
    ∃ ms, drain s = .ok (ms, []) := by
  intro s h
  induction h with
  | nil => exact ⟨[], rfl⟩
  | cons f s2 hf8 hle hpk hbytes hs ih =>
    obtain ⟨ms, hms⟩ := ih
    have hc : 8 ≤ f.length ∧ leU16 f 6 ≤ f.length := ⟨hf8, by rw [hpk]⟩
    have h8 : 8 ≤ leU16 f 6 := by rw [hpk]; exact hf8
    have hdf : drain f = .ok ([decodeMsg f], []) := by
      rw [drain_step hc h8, hpk, List.drop_length, List.take_length]
      rfl
    refine ⟨decodeMsg f :: ms, ?_⟩
    rw [drain_append f s2, hdf, drainCombine_ok, List.nil_append, hms]
    rfl

/-- C7: message framing is self-delimiting — for every concatenation of
well-formed frames, splitting the byte stream into arbitrary read chunks
dispatches the same sequence of (object id, opcode, argument bytes)
triples as delivering it in one read, with nothing left in the queue. -/
theorem framing_self_delimiting (chunks : List (List Nat))
    (h : WfStream chunks.flatten) :
    ∃ ms, processChunks [] chunks = .ok (ms, [])
      ∧ processChunks [] [chunks.flatten] = .ok (ms, []) := by
  obtain ⟨ms, hms⟩ := wfstream_drain h
  have h0 : drain ([] : List Nat) = .ok ([], []) := rfl
  refine ⟨ms, ?_, ?_⟩
  · rw [processChunks_drain chunks [] h0, List.nil_append]
    exact hms
  · rw [processChunks_drain [chunks.flatten] [] h0, List.nil_append]
    show drain (chunks.flatten ++ []) = _
    rw [List.append_nil]
    exact hms

/-- Witness for C7: two 8-byte frames split at a boundary that cuts the
first frame's header. -/
theorem framing_self_delimiting_witness :
    WfStream ([[1, 0, 0, 0, 0], [0, 8, 0, 2, 0, 0, 0, 0, 0, 8, 0]].flatten)
    ∧ ∃ ms,
      processChunks [] [[1, 0, 0, 0, 0], [0, 8, 0, 2, 0, 0, 0, 0, 0, 8, 0]] =
        .ok (ms, [])
      ∧ processChunks []
          [[[1, 0, 0, 0, 0], [0, 8, 0, 2, 0, 0, 0, 0, 0, 8, 0]].flatten] =
        .ok (ms, []) := by
  have hw : WfStream ([[1, 0, 0, 0, 0], [0, 8, 0, 2, 0, 0, 0, 0, 0, 8, 0]].flatten) := by
    show WfStream ([1, 0, 0, 0, 0, 0, 8, 0] ++ ([2, 0, 0, 0, 0, 0, 8, 0] ++ []))
    exact WfStream.cons _ _ (by decide) (by decide) (by decide) (by decide)
      (WfStream.cons _ _ (by decide) (by decide) (by decide) (by decide) WfStream.nil)
  exact ⟨hw, framing_self_delimiting _ hw⟩
